import Mathlib

/-!
Verification development for the Langflow relay server (src/app.py).

The development shallowly embeds the response-extraction algorithm of the
POST /chat endpoint (function chat_with_langflow, lines 100-164), the
fallback recursive search extract_text_recursively (lines 145-158), the
header construction build_langflow_headers (lines 32-42) and the error
translation of the surrounding try/except (lines 54, 172-177).

JSON documents are modelled by the inductive type JsonValue.  The dynamic
(duck-typed) Python operations that the code applies to unknown values are
modelled by pyContains (the operator k in v), pySubscript (v[k]), pyIter
(for x in v), pyTruthy (bool(v)) and pyStrip (v.strip()); each returns an
Except value when the corresponding Python operation raises TypeError or
KeyError, since the source performs these operations on unvalidated data.
-/

inductive JsonValue where
  | null : JsonValue
  | bool : Bool → JsonValue
  | num : Int → JsonValue
  | str : String → JsonValue
  | arr : List JsonValue → JsonValue
  | obj : List (String × JsonValue) → JsonValue

/-- Python exception kinds that the embedded code can raise.  httpExc models
fastapi.HTTPException (a subclass of Exception) with its status code and
detail; requestError models httpx.RequestError; validationError models the
pydantic error raised when a non-string reaches ChatResponse.response. -/
inductive PyErr where
  | typeError : PyErr
  | keyError : PyErr
  | validationError : PyErr
  | httpExc : Nat → String → PyErr
  | requestError : String → PyErr
deriving Repr, DecidableEq

/-- Prefix test on character lists, used for the Python substring operator. -/
def charsPre : List Char → List Char → Bool
  | [], _ => true
  | _ :: _, [] => false
  | a :: atl, b :: btl => a == b && charsPre atl btl

/-- Substring occurrence test on character lists. -/
def charsSub (needle : List Char) : List Char → Bool
  | [] => charsPre needle []
  | c :: rest => charsPre needle (c :: rest) || charsSub needle rest

/-- Python: needle in hay, for two strings (substring containment). -/
def pyInStr (needle hay : String) : Bool := charsSub needle.toList hay.toList

/-- Python whitespace as stripped by str.strip() (ASCII part). -/
def isPyWs (c : Char) : Bool :=
  c == ' ' || c == '\t' || c == '\n' || c == '\r' || c == '\x0b' || c == '\x0c'

def dropWsLeft : List Char → List Char
  | [] => []
  | c :: rest => if isPyWs c then dropWsLeft rest else c :: rest

/-- Python str.strip(): remove leading and trailing whitespace. -/
def pyStrip (s : String) : String :=
  String.mk ((dropWsLeft (dropWsLeft s.toList).reverse).reverse)

/-- Python: k in v for a string k and an arbitrary value v.  Dicts test key
membership, lists test element membership, strings test substring
containment; every other value raises TypeError. -/
def pyContains (v : JsonValue) (k : String) : Except PyErr Bool :=
  match v with
  | .obj kvs => .ok (kvs.any (fun kv => kv.1 == k))
  | .arr xs => .ok (xs.any (fun x => match x with | .str s => s == k | _ => false))
  | .str s => .ok (pyInStr k s)
  | _ => .error .typeError

/-- Python: v[k] for a string k.  Only dicts accept string subscripts; a
missing key raises KeyError, any non-dict raises TypeError. -/
def pySubscript (v : JsonValue) (k : String) : Except PyErr JsonValue :=
  match v with
  | .obj kvs =>
    match kvs.find? (fun kv => kv.1 == k) with
    | some kv => .ok kv.2
    | none => .error .keyError
  | _ => .error .typeError

/-- Python: for x in v.  Lists iterate elements, strings iterate one-character
strings, dicts iterate their keys; other values raise TypeError. -/
def pyIter (v : JsonValue) : Except PyErr (List JsonValue) :=
  match v with
  | .arr xs => .ok xs
  | .str s => .ok (s.toList.map (fun c => JsonValue.str (String.singleton c)))
  | .obj kvs => .ok (kvs.map (fun kv => JsonValue.str kv.1))
  | _ => .error .typeError

/-- Python truthiness bool(v). -/
def pyTruthy : JsonValue → Bool
  | .null => false
  | .bool b => b
  | .num n => n != 0
  | .str s => s != ""
  | .arr xs => !xs.isEmpty
  | .obj kvs => !kvs.isEmpty

def kOutputs : String := "outputs"
def kResults : String := "results"
def kMessage : String := "message"
def kText : String := "text"

/-- The fixed fallback reply initialised into bot_response (app.py line 118). -/
def SENTINEL : String := "I received your message but couldn\x27t generate a proper response."

/-- Python: bot_response == "I received your message ..." where bot_response
may hold any value (string equality is False against non-strings). -/
def isSentinelStr (bot : JsonValue) : Bool :=
  match bot with
  | .str s => s == SENTINEL
  | _ => false

/-- Body of the inner Phase 1 loop, app.py lines 125-141: the processing of
one output_item.  Returns some v when the item assigns bot_response := v and
breaks (the assigned value is not necessarily a string: lines 131 and 137
copy the value under a text key without an isinstance check). -/
def itemYield (output_item : JsonValue) : Except PyErr (Option JsonValue) :=
  match pyContains output_item kResults with
  | .error e => .error e
  | .ok false => .ok none
  | .ok true =>
    match pySubscript output_item kResults with
    | .error e => .error e
    | .ok results =>
      match results with
      | .obj rkvs =>
        if rkvs.any (fun kv => kv.1 == kMessage) then
          match pySubscript results kMessage with
          | .error e => .error e
          | .ok message_obj =>
            match message_obj with
            | .obj mkvs =>
              if mkvs.any (fun kv => kv.1 == kText) then
                match pySubscript message_obj kText with
                | .error e => .error e
                | .ok t => .ok (some t)
              else
                .ok none
            | .str s => .ok (some (JsonValue.str s))
            | _ => .ok none
        else if rkvs.any (fun kv => kv.1 == kText) then
          match pySubscript results kText with
          | .error e => .error e
          | .ok t => .ok (some t)
        else
          .ok none
      | .str s => .ok (some (JsonValue.str s))
      | _ => .ok none

/-- The inner for output_item loop (app.py line 124): a break after an
assignment to bot_response exits only this loop. -/
def innerLoop (bot : JsonValue) : List JsonValue → Except PyErr JsonValue
  | [] => .ok bot
  | item :: rest =>
    match itemYield item with
    | .error e => .error e
    | .ok (some newBot) => .ok newBot
    | .ok none => innerLoop bot rest

/-- One iteration of the outer for output loop, app.py lines 122-141. -/
def phase1Outer (bot : JsonValue) (output : JsonValue) : Except PyErr JsonValue :=
  match pyContains output kOutputs with
  | .error e => .error e
  | .ok false => .ok bot
  | .ok true =>
    match pySubscript output kOutputs with
    | .error e => .error e
    | .ok innerVal =>
      if pyTruthy innerVal then
        match pyIter innerVal with
        | .error e => .error e
        | .ok innerList => innerLoop bot innerList
      else
        .ok bot

/-- The outer for output loop: iterates all entries; any break inside the
inner loop only returns control here, so later entries keep running. -/
def outerLoop (bot : JsonValue) : List JsonValue → Except PyErr JsonValue
  | [] => .ok bot
  | output :: rest =>
    match phase1Outer bot output with
    | .error e => .error e
    | .ok bot2 => outerLoop bot2 rest

/-- Phase 1 of the extraction, app.py lines 118-141: bot_response starts as
the fixed fallback string and the structured walk may reassign it. -/
def phase1 (response_data : JsonValue) : Except PyErr JsonValue :=
  match pyContains response_data kOutputs with
  | .error e => .error e
  | .ok false => .ok (JsonValue.str SENTINEL)
  | .ok true =>
    match pySubscript response_data kOutputs with
    | .error e => .error e
    | .ok outsVal =>
      match pyIter outsVal with
      | .error e => .error e
      | .ok outs => outerLoop (JsonValue.str SENTINEL) outs

def fallbackKeys : List String := ["text", "content", "response", "output"]

/-- The key test of app.py line 148: key in [...] and isinstance(value, str)
and value.strip() (truthy, i.e. non-empty after stripping). -/
def keyMatch (k : String) (v : JsonValue) : Option String :=
  match v with
  | .str s => if fallbackKeys.contains k && pyStrip s != "" then some s else none
  | _ => none

mutual
/-- app.py lines 145-158: the fallback depth-first search. -/
def extract_text_recursively : JsonValue → Option String
  | .obj kvs => etrPairs kvs
  | .arr xs => etrItems xs
  | _ => none
/-- The for key, value in obj.items() loop (lines 147-152); a recursive result
is returned only when truthy (None and the empty string are skipped). -/
def etrPairs : List (String × JsonValue) → Option String
  | [] => none
  | (k, v) :: rest =>
    match keyMatch k v with
    | some s => some s
    | none =>
      match extract_text_recursively v with
      | some r => if r = "" then etrPairs rest else some r
      | none => etrPairs rest
/-- The for item in list loop (lines 153-157). -/
def etrItems : List JsonValue → Option String
  | [] => none
  | item :: rest =>
    match extract_text_recursively item with
    | some r => if r = "" then etrItems rest else some r
    | none => etrItems rest
end

/-- app.py lines 144-162: Phase 2 runs when bot_response still equals the
fixed fallback string; a truthy extracted_text replaces it. -/
def afterPhase2 (response_data : JsonValue) (bot : JsonValue) : JsonValue :=
  if isSentinelStr bot then
    match extract_text_recursively response_data with
    | some s => if s = "" then bot else JsonValue.str s
    | none => bot
  else
    bot

/-- The complete extraction portion of chat_with_langflow (lines 118-162):
the value of bot_response that reaches ChatResponse on line 164. -/
def extractResponse (response_data : JsonValue) : Except PyErr JsonValue :=
  match phase1 response_data with
  | .error e => .error e
  | .ok bot => .ok (afterPhase2 response_data bot)

/-- Result type of the extractor as the specification describes it. -/
inductive ExtractionResult where
  | found : String → ExtractionResult
  | notFound : ExtractionResult
deriving Repr, DecidableEq

/-- The observable extraction outcome: the fixed fallback string denotes
NotFound (the caller substitutes it for a miss), any other string is Found,
and a non-string bot_response fails ChatResponse validation (response: str). -/
def extract (response_data : JsonValue) : Except PyErr ExtractionResult :=
  match extractResponse response_data with
  | .error e => .error e
  | .ok (JsonValue.str s) =>
    if s = SENTINEL then .ok ExtractionResult.notFound else .ok (ExtractionResult.found s)
  | .ok _ => .error .validationError

/-- app.py lines 22-26: the request body. session_id is modelled after its
default has been applied; api_key and flow_id stay optional. -/
structure ChatRequest where
  message : String
  session_id : String
  api_key : Option String
  flow_id : Option String
deriving Repr, DecidableEq

/-- app.py lines 28-30: the response model; response is declared str. -/
structure ChatResponse where
  response : String
  session_id : String
deriving Repr, DecidableEq

/-- Python: a or b for an optional string a: None and the empty string are
falsy, so both fall back to b. -/
def pyOrStr (a : Option String) (b : String) : String :=
  match a with
  | some s => if s = "" then b else s
  | none => b

/-- app.py lines 32-42.  The process-wide default LANGFLOW_API_KEY is passed
as the parameter envApiKey.  Headers are kept in insertion order. -/
def build_langflow_headers (user_api_key : Option String) (envApiKey : String) : List (String × String) :=
  let headers : List (String × String) := [("Accept", "application/json")]
  let api_key := pyOrStr user_api_key envApiKey
  if api_key != "" then headers ++ [("x-api-key", api_key)] else headers

/-- The upstream call outcome observed by chat_with_langflow: either
httpx.RequestError at the transport level, or a response with a status code,
a body text and the result of attempting to parse the body as JSON (none
models a json.JSONDecodeError from response.json()). -/
inductive UpstreamBehavior where
  | connectError : String → UpstreamBehavior
  | response : Nat → String → Option JsonValue → UpstreamBehavior

def noTargetDetail : String :=
  "No flow_id provided in request and no FLOW_ID environment variable set. Please provide flow_id in the request body."

def emptyBodyDetail : String := "Empty response from Langflow"

def invalidJsonDetail : String := "Invalid JSON response from Langflow"

def langflowErrDetail : String := "Langflow API error: "

/-- The try block of chat_with_langflow, app.py lines 54-170, with the
process-wide FLOW_ID passed as envFlowId.  Every raise HTTPException inside
the block is an Except error carrying its intended status code. -/
def chat_with_langflow_try (request : ChatRequest) (envFlowId : String) (up : UpstreamBehavior) : Except PyErr ChatResponse :=
  let flow_id := pyOrStr request.flow_id envFlowId
  if flow_id = "" then
    .error (.httpExc 400 noTargetDetail)
  else
    match up with
    | .connectError m => .error (.requestError m)
    | .response status text json =>
      if status = 200 then
        if pyStrip text = "" then
          .error (.httpExc 502 emptyBodyDetail)
        else
          match json with
          | none => .error (.httpExc 502 invalidJsonDetail)
          | some response_data =>
            match extractResponse response_data with
            | .error e => .error e
            | .ok (JsonValue.str s) => .ok { response := s, session_id := request.session_id }
            | .ok _ => .error .validationError
      else
        .error (.httpExc status (langflowErrDetail ++ text))

/-- Rendering of str(e) used in the detail of the generic 500 handler; the
exact text is approximated, only its presence matters. -/
def excMessage : PyErr → String
  | .typeError => "TypeError"
  | .keyError => "KeyError"
  | .validationError => "ValidationError"
  | .httpExc status detail => toString status ++ ": " ++ detail
  | .requestError m => m

def connectErrDetail : String := "Could not connect to Langflow: "

def internalErrDetail : String := "Internal server error: "

/-- app.py lines 172-177: except httpx.RequestError gives 503; the following
except Exception catches every other exception, including the HTTPException
values the body itself raised, and re-raises them as status 500. -/
def chat_with_langflow (request : ChatRequest) (envFlowId : String) (up : UpstreamBehavior) : Except PyErr ChatResponse :=
  match chat_with_langflow_try request envFlowId up with
  | .ok r => .ok r
  | .error (.requestError m) => .error (.httpExc 503 (connectErrDetail ++ m))
  | .error e => .error (.httpExc 500 (internalErrDetail ++ excMessage e))

/-- The HTTP status surfaced to the client, when the outcome is an
HTTPException. -/
def errStatus {α : Type} : Except PyErr α → Option Nat
  | .error (.httpExc status _) => some status
  | _ => none

/-- First value bound to a key in a mapping, as Python dict lookup sees it. -/
def objLookup (kvs : List (String × JsonValue)) (k : String) : Option JsonValue :=
  match kvs.find? (fun kv => kv.1 == k) with
  | some kv => some kv.2
  | none => none

/-- An inner outputs element that is a mapping, the shape for which the line
125 membership test and line 126 subscript cannot raise. -/
def itemOk : JsonValue → Bool
  | .obj _ => true
  | _ => false

/-- An outer outputs element that is a mapping whose own outputs value, when
present, is a sequence of mappings. -/
def entryOk : JsonValue → Bool
  | .obj kvs =>
    match objLookup kvs kOutputs with
    | none => true
    | some (.arr items) => items.all itemOk
    | some _ => false
  | _ => false

/-- A document whose root is a mapping and whose outputs value, when present,
is a sequence of entryOk elements: a sufficient shape for Phase 1 to finish
without raising. -/
def wellShaped : JsonValue → Bool
  | .obj kvs =>
    match objLookup kvs kOutputs with
    | none => true
    | some (.arr outs) => outs.all entryOk
    | some _ => false
  | _ => false

/-- A document root holding only an outputs sequence. -/
def mkDoc (entries : List JsonValue) : JsonValue :=
  JsonValue.obj [(kOutputs, JsonValue.arr entries)]

/-- An outer outputs entry holding inner items. -/
def mkEntry (items : List JsonValue) : JsonValue :=
  JsonValue.obj [(kOutputs, JsonValue.arr items)]

/-- An inner item with results.message being a plain string. -/
def msgStrItem (s : String) : JsonValue :=
  JsonValue.obj [(kResults, JsonValue.obj [(kMessage, JsonValue.str s)])]

/-- An inner item with results.message.text being a string. -/
def msgTextItem (s : String) : JsonValue :=
  JsonValue.obj [(kResults, JsonValue.obj [(kMessage, JsonValue.obj [(kText, JsonValue.str s)])])]

/-- A document root whose first binding is an outputs sequence, followed by
arbitrary further bindings. -/
def docGen (entries : List JsonValue) (rootRest : List (String × JsonValue)) : JsonValue :=
  JsonValue.obj ((kOutputs, JsonValue.arr entries) :: rootRest)

/-- An outer entry whose first binding is an outputs sequence, followed by
arbitrary further bindings. -/
def entryGen (items : List JsonValue) (eRest : List (String × JsonValue)) : JsonValue :=
  JsonValue.obj ((kOutputs, JsonValue.arr items) :: eRest)

/-- An inner item carrying results.message.text = X as the first binding at
every level, with arbitrary further bindings mRest, rRest, iRest alongside. -/
def msgTextItemGen (X : String) (mRest rRest iRest : List (String × JsonValue)) : JsonValue :=
  JsonValue.obj ((kResults,
    JsonValue.obj ((kMessage, JsonValue.obj ((kText, JsonValue.str X) :: mRest)) :: rRest)) :: iRest)

/-- C1 failing input: two separate outputs entries, each extractable. -/
def c1doc : JsonValue := mkDoc [mkEntry [msgStrItem ("A")], mkEntry [msgStrItem ("B")]]

/-- C3 counterexample input: the shape with X in the first entry, another
extractable message Y in a later entry. -/
def c3doc : JsonValue := mkDoc [mkEntry [msgTextItem ("X")], mkEntry [msgTextItem ("Y")]]

/-- C4 counterexample input: Phase 1 yields exactly the fallback sentinel,
and elsewhere the document carries a content key. -/
def c4doc : JsonValue :=
  JsonValue.obj [(kOutputs, JsonValue.arr [mkEntry [msgStrItem SENTINEL]]), (("content"), JsonValue.str ("hello"))]

/-- C5 counterexample input: a results node with message A and text B in one
entry, then another extractable entry with message C. -/
def c5item : JsonValue :=
  JsonValue.obj [(kResults, JsonValue.obj [(kMessage, JsonValue.str ("A")), (kText, JsonValue.str ("B"))])]

def c5doc : JsonValue := mkDoc [mkEntry [c5item], mkEntry [msgStrItem ("C")]]

/-- C6 failing inputs: text keys holding non-string values. -/
def c6doc : JsonValue :=
  mkDoc [mkEntry [JsonValue.obj [(kResults, JsonValue.obj [(kMessage, JsonValue.obj [(kText, JsonValue.num 7)])])]]]

def c6docB : JsonValue :=
  mkDoc [mkEntry [JsonValue.obj [(kResults, JsonValue.obj [(kText, JsonValue.bool true)])]]]

def reqNoFlow : ChatRequest :=
  { message := "hello", session_id := "default", api_key := none, flow_id := none }

def reqEmptyFlow : ChatRequest :=
  { message := "hello", session_id := "default", api_key := none, flow_id := some ("") }

def reqWithFlow : ChatRequest :=
  { message := "hello", session_id := "default", api_key := none, flow_id := some ("flow-1") }

def upOk : UpstreamBehavior := .response 200 ("\x7b\x7d") (some (JsonValue.obj []))

def upEmptyBody : UpstreamBehavior := .response 200 ("   ") none

def upBadJson : UpstreamBehavior := .response 200 ("not json") none

/-! ## Helper lemmas -/

lemma find_of_any {α : Type} (p : α → Bool) (l : List α) (h : l.any p = true) :
    ∃ a, l.find? p = some a := by
  induction l with
  | nil => simp at h
  | cons a tl ih =>
    by_cases hpa : p a = true
    · exact ⟨a, List.find?_cons_of_pos _ hpa⟩
    · rw [List.find?_cons_of_neg _ hpa]
      apply ih
      rw [List.any_cons] at h
      rcases Bool.or_eq_true_iff.mp h with h1 | h2
      · exact absurd h1 hpa
      · exact h2

lemma pySubscript_obj_ok (kvs : List (String × JsonValue)) (k : String)
    (h : kvs.any (fun kv => kv.1 == k) = true) :
    ∃ kv, kvs.find? (fun kv => kv.1 == k) = some kv ∧
      pySubscript (JsonValue.obj kvs) k = .ok kv.2 := by
  obtain ⟨kv, hf⟩ := find_of_any _ _ h
  exact ⟨kv, hf, by simp [pySubscript, hf]⟩

lemma itemYield_obj_ok (kvs : List (String × JsonValue)) :
    ∃ o, itemYield (JsonValue.obj kvs) = .ok o := by
  cases hany : kvs.any (fun kv => kv.1 == kResults) with
  | false => exact ⟨none, by simp [itemYield, pyContains, hany]⟩
  | true =>
    obtain ⟨kv, hf, hsub⟩ := pySubscript_obj_ok kvs kResults hany
    rcases kv with ⟨k1, results⟩
    match results with
    | .null | .bool _ | .num _ | .arr _ =>
      exact ⟨none, by simp [itemYield, pyContains, hany, hsub]⟩
    | .str s =>
      exact ⟨some (JsonValue.str s), by simp [itemYield, pyContains, hany, hsub]⟩
    | .obj rkvs =>
      cases hm : rkvs.any (fun kv => kv.1 == kMessage) with
      | true =>
        obtain ⟨mkv, hmf, hmsub⟩ := pySubscript_obj_ok rkvs kMessage hm
        rcases mkv with ⟨k2, message_obj⟩
        match message_obj with
        | .null | .bool _ | .num _ | .arr _ =>
          exact ⟨none, by simp [itemYield, pyContains, hany, hsub, hm, hmsub]⟩
        | .str s =>
          exact ⟨some (JsonValue.str s), by simp [itemYield, pyContains, hany, hsub, hm, hmsub]⟩
        | .obj mkvs =>
          cases ht : mkvs.any (fun kv => kv.1 == kText) with
          | true =>
            obtain ⟨tkv, htf, htsub⟩ := pySubscript_obj_ok mkvs kText ht
            exact ⟨some tkv.2, by simp [itemYield, pyContains, hany, hsub, hm, hmsub, ht, htsub]⟩
          | false =>
            exact ⟨none, by simp [itemYield, pyContains, hany, hsub, hm, hmsub, ht]⟩
      | false =>
        cases ht : rkvs.any (fun kv => kv.1 == kText) with
        | true =>
          obtain ⟨tkv, htf, htsub⟩ := pySubscript_obj_ok rkvs kText ht
          exact ⟨some tkv.2, by simp [itemYield, pyContains, hany, hsub, hm, ht, htsub]⟩
        | false =>
          exact ⟨none, by simp [itemYield, pyContains, hany, hsub, hm, ht]⟩

lemma innerLoop_ok (items : List JsonValue) (hall : items.all itemOk = true) (bot : JsonValue) :
    ∃ b, innerLoop bot items = .ok b := by
  induction items generalizing bot with
  | nil => exact ⟨bot, rfl⟩
  | cons item rest ih =>
    rw [List.all_cons, Bool.and_eq_true] at hall
    match item, hall.1 with
    | .obj kvs, _ =>
      obtain ⟨o, ho⟩ := itemYield_obj_ok kvs
      match o with
      | some newBot => exact ⟨newBot, by simp [innerLoop, ho]⟩
      | none =>
        obtain ⟨b, hb⟩ := ih hall.2 bot
        exact ⟨b, by simp [innerLoop, ho, hb]⟩

lemma phase1Outer_ok (e : JsonValue) (he : entryOk e = true) (bot : JsonValue) :
    ∃ b, phase1Outer bot e = .ok b := by
  match e with
  | .null | .bool _ | .num _ | .str _ | .arr _ => simp [entryOk] at he
  | .obj kvs =>
    cases hany : kvs.any (fun kv => kv.1 == kOutputs) with
    | false => exact ⟨bot, by simp [phase1Outer, pyContains, hany]⟩
    | true =>
      obtain ⟨kv, hf, hsub⟩ := pySubscript_obj_ok kvs kOutputs hany
      rw [entryOk] at he
      simp only [objLookup, hf] at he
      match kv, he with
      | ⟨k1, .arr items⟩, he =>
        match items, he with
        | [], _ => exact ⟨bot, by simp [phase1Outer, pyContains, hany, hsub, pyTruthy]⟩
        | item :: rest, he =>
          obtain ⟨b, hb⟩ := innerLoop_ok (item :: rest) he bot
          exact ⟨b, by simp [phase1Outer, pyContains, hany, hsub, pyTruthy, pyIter, hb]⟩

lemma outerLoop_ok_exists (l : List JsonValue)
    (h : ∀ e ∈ l, ∀ bot, ∃ b, phase1Outer bot e = .ok b) (bot : JsonValue) :
    ∃ b, outerLoop bot l = .ok b := by
  induction l generalizing bot with
  | nil => exact ⟨bot, rfl⟩
  | cons e rest ih =>
    obtain ⟨b2, hb2⟩ := h e (List.mem_cons_self e rest) bot
    obtain ⟨b, hb⟩ := ih (fun x hx bot2 => h x (List.mem_cons_of_mem e hx) bot2) b2
    exact ⟨b, by simp [outerLoop, hb2, hb]⟩

lemma outerLoop_noYield (l : List JsonValue)
    (h : ∀ e ∈ l, ∀ bot, phase1Outer bot e = .ok bot) (bot : JsonValue) :
    outerLoop bot l = .ok bot := by
  induction l with
  | nil => rfl
  | cons e rest ih =>
    have h1 := h e (List.mem_cons_self e rest) bot
    have h2 := ih (fun x hx bot2 => h x (List.mem_cons_of_mem e hx) bot2)
    simp [outerLoop, h1, h2]

lemma outerLoop_append (l1 l2 : List JsonValue) :
    ∀ (bot b1 : JsonValue), outerLoop bot l1 = .ok b1 →
      outerLoop bot (l1 ++ l2) = outerLoop b1 l2 := by
  induction l1 with
  | nil =>
    intro bot b1 h
    simp only [outerLoop] at h
    cases h
    rw [List.nil_append]
  | cons e rest ih =>
    intro bot b1 h
    simp only [List.cons_append, outerLoop] at h ⊢
    cases hpa : phase1Outer bot e with
    | error er => rw [hpa] at h; simp at h
    | ok b2 =>
      rw [hpa] at h
      exact ih b2 b1 h

lemma extractResponse_of_phase1 (v b : JsonValue) (h : phase1 v = .ok b) :
    extractResponse v = .ok (afterPhase2 v b) := by
  simp [extractResponse, h]

lemma phase1_root (L : List JsonValue) (rootRest : List (String × JsonValue)) :
    phase1 (JsonValue.obj ((kOutputs, JsonValue.arr L) :: rootRest)) =
      outerLoop (JsonValue.str SENTINEL) L := by
  simp [phase1, pyContains, pySubscript, pyIter, List.any_cons, List.find?_cons_of_pos]

lemma itemYield_first_msgText (t : JsonValue) (mRest rRest iRest : List (String × JsonValue)) :
    itemYield (JsonValue.obj ((kResults,
      JsonValue.obj ((kMessage, JsonValue.obj ((kText, t) :: mRest)) :: rRest)) :: iRest)) =
      .ok (some t) := by
  simp [itemYield, pyContains, pySubscript, List.any_cons, List.find?_cons_of_pos]

lemma itemYield_first_msgStr (A : String) (rRest iRest : List (String × JsonValue)) :
    itemYield (JsonValue.obj ((kResults,
      JsonValue.obj ((kMessage, JsonValue.str A) :: rRest)) :: iRest)) =
      .ok (some (JsonValue.str A)) := by
  simp [itemYield, pyContains, pySubscript, List.any_cons, List.find?_cons_of_pos]

lemma phase1Outer_entry (y item : JsonValue) (inner : List JsonValue)
    (eRest : List (String × JsonValue)) (bot : JsonValue)
    (hy : itemYield item = .ok (some y)) :
    phase1Outer bot (JsonValue.obj ((kOutputs, JsonValue.arr (item :: inner)) :: eRest)) = .ok y := by
  simp [phase1Outer, pyContains, pySubscript, pyTruthy, pyIter, innerLoop, hy,
    List.any_cons, List.find?_cons_of_pos]

lemma isSentinelStr_of_ne (X : String) (hX : X ≠ SENTINEL) :
    isSentinelStr (JsonValue.str X) = false := by
  simp [isSentinelStr, hX]

lemma keyMatch_strip (k : String) (v : JsonValue) (s : String) (h : keyMatch k v = some s) :
    pyStrip s ≠ "" := by
  match v with
  | .null | .bool _ | .num _ | .arr _ | .obj _ => simp [keyMatch] at h
  | .str s0 =>
    simp only [keyMatch] at h
    by_cases hc : (fallbackKeys.contains k && pyStrip s0 != "") = true
    · rw [if_pos hc] at h
      injection h with h2
      subst h2
      have h3 := (Bool.and_eq_true_iff.mp hc).2
      simpa using h3
    · rw [if_neg hc] at h
      cases h

lemma ne_empty_of_strip (s : String) (h : pyStrip s ≠ "") : s ≠ "" :=
  fun hs => h (by rw [hs]; rfl)

lemma etr_some_strip (v : JsonValue) :
    ∀ (s : String), extract_text_recursively v = some s → pyStrip s ≠ "" := by
  refine extract_text_recursively.induct
    (fun v => ∀ s, extract_text_recursively v = some s → pyStrip s ≠ "")
    (fun xs => ∀ s, etrItems xs = some s → pyStrip s ≠ "")
    (fun kvs => ∀ s, etrPairs kvs = some s → pyStrip s ≠ "")
    ?_ ?_ ?_ ?_ ?_ ?_ ?_ ?_ ?_ ?_ ?_ ?_ v
  · intro kvs ih s h
    simp only [extract_text_recursively] at h
    exact ih s h
  · intro xs ih s h
    simp only [extract_text_recursively] at h
    exact ih s h
  · intro t hobj harr s h
    match t, h with
    | .null, h => simp [extract_text_recursively] at h
    | .bool b, h => simp [extract_text_recursively] at h
    | .num n, h => simp [extract_text_recursively] at h
    | .str s0, h => simp [extract_text_recursively] at h
    | .obj kvs, h => exact (hobj kvs rfl).elim
    | .arr xs, h => exact (harr xs rfl).elim
  · intro s h
    simp [etrItems] at h
  · intro item rest hitem ih1 ih2 s h
    apply ih2
    simp [etrItems, hitem] at h
    exact h
  · intro item rest r hitem hr ih1 s h
    simp only [etrItems, hitem] at h
    rw [if_neg hr] at h
    injection h with h2
    exact h2 ▸ ih1 r hitem
  · intro item rest hitem ih1 ih2 s h
    apply ih2
    simp only [etrItems, hitem] at h
    exact h
  · intro s h
    simp [etrPairs] at h
  · intro k v rest r hkm s h
    simp only [etrPairs, hkm] at h
    injection h with h2
    exact h2 ▸ keyMatch_strip k v r hkm
  · intro k v rest hkm hv ih1 ih3 s h
    apply ih3
    simp [etrPairs, hkm, hv] at h
    exact h
  · intro k v rest hkm r hv hr ih1 s h
    simp only [etrPairs, hkm, hv] at h
    rw [if_neg hr] at h
    injection h with h2
    exact h2 ▸ ih1 r hv
  · intro k v rest hkm hv ih1 ih3 s h
    apply ih3
    simp only [etrPairs, hkm, hv] at h
    exact h

lemma phase1_wellShaped_ok (v : JsonValue) (h : wellShaped v = true) :
    ∃ b, phase1 v = .ok b := by
  match v with
  | .null | .bool _ | .num _ | .str _ | .arr _ => simp [wellShaped] at h
  | .obj kvs =>
    cases hany : kvs.any (fun kv => kv.1 == kOutputs) with
    | false => exact ⟨JsonValue.str SENTINEL, by simp [phase1, pyContains, hany]⟩
    | true =>
      obtain ⟨kv, hf, hsub⟩ := pySubscript_obj_ok kvs kOutputs hany
      rw [wellShaped] at h
      simp only [objLookup, hf] at h
      match kv, h with
      | ⟨k1, .arr outs⟩, h =>
        have hall : ∀ e ∈ outs, ∀ bot, ∃ b, phase1Outer bot e = .ok b := by
          intro e he bot
          exact phase1Outer_ok e (List.all_eq_true.mp h e he) bot
        obtain ⟨b, hb⟩ := outerLoop_ok_exists outs hall (JsonValue.str SENTINEL)
        exact ⟨b, by simp [phase1, pyContains, hany, hsub, pyIter, hb]⟩

/-! ## Claim theorems -/

/-- Claim C1 concerns app.py lines 121-141: the claim states that the first
yielded string is returned and any yield stops all remaining Phase 1
iteration.  The code breaks only out of the inner loop: here both outer
entries are extractable (first A, then B) and the walk returns B, the later
entry, so a yield does not stop the outer iteration and a later entry
overwrites the result. -/
theorem c1_last_entry_wins :
    itemYield (msgStrItem ("A")) = .ok (some (JsonValue.str ("A"))) ∧
    itemYield (msgStrItem ("B")) = .ok (some (JsonValue.str ("B"))) ∧
    extractResponse c1doc = .ok (JsonValue.str ("B")) ∧
    extract c1doc = .ok (ExtractionResult.found ("B")) :=
  ⟨rfl, rfl, rfl, rfl⟩

/-- Claim C2 counterexample: the extractor is not total.  A non-sequence
value under the root outputs key, or a non-mapping element inside the
outputs sequence, raises TypeError (lines 121-124 perform iteration and
membership tests without isinstance checks). -/
theorem c2_counterexample :
    extractResponse (JsonValue.obj [(kOutputs, JsonValue.num 5)]) = .error .typeError ∧
    extractResponse (JsonValue.obj [(kOutputs, JsonValue.arr [JsonValue.num 5])]) = .error .typeError :=
  ⟨rfl, rfl⟩

/-- Claim C2 as amended: extraction completes without raising on every
document whose root is a mapping and whose outputs value, when present, is a
sequence of mappings whose own inner outputs values, when present, are
sequences of mappings (the fallback recursive search is total by itself). -/
theorem c2_total_when_wellShaped (v : JsonValue) (h : wellShaped v = true) :
    ∃ r, extractResponse v = .ok r := by
  obtain ⟨b, hb⟩ := phase1_wellShaped_ok v h
  exact ⟨afterPhase2 v b, extractResponse_of_phase1 v b hb⟩

/-- Witness for the amended C2 at a concrete well-shaped document. -/
theorem c2_total_witness :
    wellShaped (mkDoc [mkEntry [msgStrItem ("A")]]) = true ∧
    ∃ r, extractResponse (mkDoc [mkEntry [msgStrItem ("A")]]) = .ok r :=
  ⟨rfl, c2_total_when_wellShaped (mkDoc [mkEntry [msgStrItem ("A")]]) rfl⟩

/-- Claim C3 counterexample: c3doc contains the exact nested shape
outputs[0].outputs[0].results.message.text = X, yet extract returns Found Y,
because the later outputs entry yielding Y overwrites the earlier X (the
break of line 132 leaves only the inner loop). -/
theorem c3_counterexample :
    extract c3doc = .ok (ExtractionResult.found ("Y")) ∧
    ExtractionResult.found ("Y") ≠ ExtractionResult.found ("X") :=
  ⟨rfl, by decide⟩

/-- Claim C3 as amended: the shape occurrence must sit in the last yielding
outer entry.  For every document whose root outputs sequence is pre, then an
entry whose first inner item carries results.message.text = X, then post,
where the pre entries process without raising, the post entries process
without raising and without yielding, and X differs from the fixed fallback
string, extract returns Found X regardless of every other binding (rootRest,
eRest, iRest, rRest, mRest, trailing inner items). -/
theorem c3_found_when_last_yield (X : String)
    (rootRest eRest iRest rRest mRest : List (String × JsonValue))
    (pre inner post : List JsonValue)
    (hX : X ≠ SENTINEL)
    (hpre : ∀ e ∈ pre, ∀ bot, ∃ b, phase1Outer bot e = .ok b)
    (hpost : ∀ e ∈ post, ∀ bot, phase1Outer bot e = .ok bot) :
    extract (docGen (pre ++ entryGen (msgTextItemGen X mRest rRest iRest :: inner) eRest :: post)
      rootRest) = .ok (ExtractionResult.found X) := by
  obtain ⟨b1, hb1⟩ := outerLoop_ok_exists pre hpre (JsonValue.str SENTINEL)
  have hentry := phase1Outer_entry (JsonValue.str X) (msgTextItemGen X mRest rRest iRest) inner
    eRest b1 (itemYield_first_msgText (JsonValue.str X) mRest rRest iRest)
  have hpost2 := outerLoop_noYield post hpost (JsonValue.str X)
  have hphase : phase1 (docGen (pre ++ entryGen (msgTextItemGen X mRest rRest iRest :: inner)
      eRest :: post) rootRest) = .ok (JsonValue.str X) := by
    rw [docGen, phase1_root, outerLoop_append _ _ _ b1 hb1]
    simp only [entryGen, outerLoop, hentry]
    exact hpost2
  rw [extract, extractResponse_of_phase1 _ _ hphase]
  simp [afterPhase2, isSentinelStr_of_ne X hX, hX]

/-- Witness for the amended C3 at the minimal shape document. -/
theorem c3_found_witness :
    (("X" : String) ≠ SENTINEL) ∧
    extract (docGen [entryGen [msgTextItemGen ("X") [] [] []] []] []) =
      .ok (ExtractionResult.found ("X")) :=
  ⟨by decide, c3_found_when_last_yield ("X") [] [] [] [] [] [] [] []
    (by decide)
    (by intro e he bot; exact absurd he (List.not_mem_nil e))
    (by intro e he bot; exact absurd he (List.not_mem_nil e))⟩

/-- Claim C4 counterexample: Phase 1 does yield a string here (the item
resolves results.message to the fixed fallback text), yet the fallback
recursive search still runs and replaces it with hello, because line 144
detects a Phase 1 miss by comparing bot_response against the fallback string
itself. -/
theorem c4_counterexample :
    itemYield (msgStrItem SENTINEL) = .ok (some (JsonValue.str SENTINEL)) ∧
    phase1 c4doc = .ok (JsonValue.str SENTINEL) ∧
    extractResponse c4doc = .ok (JsonValue.str ("hello")) := by
  refine ⟨rfl, rfl, ?_⟩
  have h1 : phase1 c4doc = .ok (JsonValue.str SENTINEL) := rfl
  have hps : pyStrip ("hello") = ("hello") := rfl
  have h2 : extract_text_recursively c4doc = some ("hello") := by
    simp [c4doc, mkEntry, msgStrItem, extract_text_recursively, etrPairs, etrItems, keyMatch,
      fallbackKeys, kOutputs, kResults, kMessage, hps]
  simp [extractResponse, h1, afterPhase2, isSentinelStr, h2]

/-- Claim C4 as amended: the fallback runs exactly when the Phase 1 result
equals the fixed fallback string.  When Phase 1 completes with any other
value, that value is returned unchanged; when Phase 1 completes with the
fallback string (in particular when it never yielded), the result is the
recursive search result when that search finds a string and the fallback
string otherwise. -/
theorem c4_phase2_iff_sentinel (v bot : JsonValue) (h : phase1 v = .ok bot) :
    (isSentinelStr bot = false → extractResponse v = .ok bot) ∧
    (bot = JsonValue.str SENTINEL →
      (∀ s, extract_text_recursively v = some s → extractResponse v = .ok (JsonValue.str s)) ∧
      (extract_text_recursively v = none → extractResponse v = .ok (JsonValue.str SENTINEL))) := by
  constructor
  · intro hb
    rw [extractResponse_of_phase1 v bot h]
    simp [afterPhase2, hb]
  · intro hb
    subst hb
    constructor
    · intro s hs
      rw [extractResponse_of_phase1 _ _ h]
      have hne : s ≠ "" := ne_empty_of_strip s (etr_some_strip v s hs)
      simp [afterPhase2, isSentinelStr, hs, hne]
    · intro hn
      rw [extractResponse_of_phase1 _ _ h]
      simp [afterPhase2, isSentinelStr, hn]

/-- Witness for the amended C4: a Phase 1 result different from the fallback
string is returned unchanged. -/
theorem c4_phase2_witness :
    phase1 (mkDoc [mkEntry [msgTextItem ("X")]]) = .ok (JsonValue.str ("X")) ∧
    extractResponse (mkDoc [mkEntry [msgTextItem ("X")]]) = .ok (JsonValue.str ("X")) :=
  ⟨rfl, (c4_phase2_iff_sentinel (mkDoc [mkEntry [msgTextItem ("X")]])
    (JsonValue.str ("X")) rfl).1 rfl⟩

/-- Claim C5 counterexample: c5doc holds a results node with message A and
text B, but extract returns Found C because a later outputs entry yields C
and overwrites A; the universally stated claim therefore fails. -/
theorem c5_counterexample :
    extract c5doc = .ok (ExtractionResult.found ("C")) ∧
    ExtractionResult.found ("C") ≠ ExtractionResult.found ("A") :=
  ⟨rfl, by decide⟩

/-- Claim C5 as amended: at a results node whose first binding is message = A
(a string) with a binding text = B elsewhere in the same mapping, the Phase 1
resolution of that node yields A (the message key shadows text, lines
128-138), and when that node forms the whole document and A differs from the
fixed fallback string, extract returns Found A. -/
theorem c5_message_shadows_text (A B : String) (rRest iRest : List (String × JsonValue))
    (_hmem : (kText, JsonValue.str B) ∈ rRest) (hA : A ≠ SENTINEL) :
    itemYield (JsonValue.obj ((kResults,
      JsonValue.obj ((kMessage, JsonValue.str A) :: rRest)) :: iRest)) =
      .ok (some (JsonValue.str A)) ∧
    extract (docGen [entryGen [JsonValue.obj ((kResults,
      JsonValue.obj ((kMessage, JsonValue.str A) :: rRest)) :: iRest)] []] []) =
      .ok (ExtractionResult.found A) := by
  have hy := itemYield_first_msgStr A rRest iRest
  refine ⟨hy, ?_⟩
  have hentry := phase1Outer_entry (JsonValue.str A)
    (JsonValue.obj ((kResults, JsonValue.obj ((kMessage, JsonValue.str A) :: rRest)) :: iRest))
    [] [] (JsonValue.str SENTINEL) hy
  have hphase : phase1 (docGen [entryGen [JsonValue.obj ((kResults,
      JsonValue.obj ((kMessage, JsonValue.str A) :: rRest)) :: iRest)] []] []) =
      .ok (JsonValue.str A) := by
    rw [docGen, phase1_root]
    simp only [entryGen, outerLoop, hentry]
  rw [extract, extractResponse_of_phase1 _ _ hphase]
  simp [afterPhase2, isSentinelStr_of_ne A hA, hA]

/-- Witness for the amended C5 at the concrete node with message A, text B. -/
theorem c5_shadow_witness :
    itemYield (JsonValue.obj [(kResults,
      JsonValue.obj [(kMessage, JsonValue.str ("A")), (kText, JsonValue.str ("B"))])]) =
      .ok (some (JsonValue.str ("A"))) ∧
    extract (docGen [entryGen [JsonValue.obj [(kResults,
      JsonValue.obj [(kMessage, JsonValue.str ("A")), (kText, JsonValue.str ("B"))])]] []] []) =
      .ok (ExtractionResult.found ("A")) :=
  c5_message_shadows_text ("A") ("B") [(kText, JsonValue.str ("B"))] []
    (List.mem_cons_self _ _) (by decide)

/-- Claim C6 concerns lines 127-141: the claim states a yield happens only
when the text value is a string.  The code checks only key presence: for
message.text = 7 the walk assigns the number 7 to bot_response, and for a
non-string results.text it assigns that boolean, so non-string yields do
happen and reach ChatResponse, whose response field is declared str. -/
theorem c6_nonstring_yield :
    extractResponse c6doc = .ok (JsonValue.num 7) ∧
    extract c6doc = .error .validationError ∧
    extractResponse c6docB = .ok (JsonValue.bool true) :=
  ⟨rfl, rfl, rfl⟩

/-- Claim C7 concerns lines 75-79 and 175-177: without a resolvable flow
identifier the body raises HTTPException 400 (the intended client-input
category), but the surrounding except Exception handler catches that very
exception and surfaces status 500, a generic internal error, to the caller;
the same happens when the request carries an empty flow_id. -/
theorem c7_notarget_surfaced_500 :
    chat_with_langflow_try reqNoFlow ("") upOk = .error (.httpExc 400 noTargetDetail) ∧
    errStatus (chat_with_langflow reqNoFlow ("") upOk) = some 500 ∧
    errStatus (chat_with_langflow reqEmptyFlow ("") upOk) = some 500 :=
  ⟨rfl, rfl, rfl⟩

/-- Claim C8 concerns lines 100-112 and 175-177: for a 200 response with a
blank body, and for a body that fails JSON parsing, the body raises
HTTPException 502 (the intended bad-gateway category), but the except
Exception handler catches it and surfaces status 500 instead. -/
theorem c8_bad_body_surfaced_500 :
    chat_with_langflow_try reqWithFlow ("") upEmptyBody = .error (.httpExc 502 emptyBodyDetail) ∧
    errStatus (chat_with_langflow reqWithFlow ("") upEmptyBody) = some 500 ∧
    chat_with_langflow_try reqWithFlow ("") upBadJson = .error (.httpExc 502 invalidJsonDetail) ∧
    errStatus (chat_with_langflow reqWithFlow ("") upBadJson) = some 500 :=
  ⟨rfl, rfl, rfl, rfl⟩

/-- Claim C9: whenever the fallback recursive search returns a result, that
result is a string that is non-empty after stripping whitespace (line 148
admits only such strings, and lines 150-157 forward only truthy results). -/
theorem c9_fallback_nonblank (v : JsonValue) (s : String)
    (h : extract_text_recursively v = some s) : pyStrip s ≠ "" :=
  etr_some_strip v s h

/-- Witness for C9 at a concrete document. -/
theorem c9_fallback_witness :
    extract_text_recursively (JsonValue.obj [(("content"), JsonValue.str ("hello"))]) =
      some ("hello") ∧
    pyStrip ("hello") ≠ "" := by
  have hps : pyStrip ("hello") = ("hello") := rfl
  have h : extract_text_recursively (JsonValue.obj [(("content"), JsonValue.str ("hello"))]) =
      some ("hello") := by
    simp [extract_text_recursively, etrPairs, keyMatch, fallbackKeys, hps]
  exact ⟨h, c9_fallback_nonblank (JsonValue.obj [(("content"), JsonValue.str ("hello"))])
    ("hello") h⟩

/-- Claim C10, app.py lines 32-42: an empty request key falls back to the
process default exactly like an absent one; with both empty or absent the
x-api-key header is omitted entirely; the Accept header is always present. -/
theorem c10_headers :
    (∀ envApiKey, build_langflow_headers (some ("")) envApiKey =
      build_langflow_headers none envApiKey) ∧
    build_langflow_headers none ("") = [("Accept", "application/json")] ∧
    build_langflow_headers (some ("")) ("") = [("Accept", "application/json")] ∧
    (∀ user envApiKey, ("Accept", "application/json") ∈ build_langflow_headers user envApiKey) := by
  refine ⟨fun envApiKey => rfl, rfl, rfl, ?_⟩
  intro user envApiKey
  simp only [build_langflow_headers]
  split
  · exact List.mem_append_left _ (List.mem_cons_self _ _)
  · exact List.mem_cons_self _ _
